import Mathlib

/-!
Verification of the via3 crawl-and-download pipeline.

Shallow embedding of the pagination inference, link extraction, document-row
scanning, crawl loops and idempotent downloader found in `src/eng/main.py`,
`src/eng/list_projects.py`, `src/imparis.py`, `src/imparis2.py` and
`src/list_projects.py`.  HTML structural parsing (BeautifulSoup element
location) is treated as an external collaborator: a fetched page is modelled
by the already-located text and attribute values the code reads from it.
-/

namespace Via3

/-- `int(...)` of a run of decimal digits, as produced by the regex groups. -/
def digitsToNat (ds : List Char) : Nat :=
  ds.foldl (fun n c => 10 * n + (c.toNat - '0'.toNat)) 0

/-- Attempt to match the regex `Pagina\s+(\d+)\s+di\s+(\d+)` at the head of
the character list, returning both captured groups.  The character classes of
adjacent pieces are disjoint, so greedy matching without backtracking is
equivalent to the regex engine's behaviour. -/
def matchPagina (l : List Char) : Option (Nat × Nat) :=
  if "Pagina".data.isPrefixOf l then
    let r1 := l.drop 6
    let ws1 := r1.takeWhile (fun c => c.isWhitespace)
    if ws1.isEmpty then none else
    let r2 := r1.dropWhile (fun c => c.isWhitespace)
    let d1 := r2.takeWhile (fun c => c.isDigit)
    if d1.isEmpty then none else
    let r3 := r2.dropWhile (fun c => c.isDigit)
    let ws2 := r3.takeWhile (fun c => c.isWhitespace)
    if ws2.isEmpty then none else
    let r4 := r3.dropWhile (fun c => c.isWhitespace)
    if "di".data.isPrefixOf r4 then
      let r5 := r4.drop 2
      let ws3 := r5.takeWhile (fun c => c.isWhitespace)
      if ws3.isEmpty then none else
      let r6 := r5.dropWhile (fun c => c.isWhitespace)
      let d2 := r6.takeWhile (fun c => c.isDigit)
      if d2.isEmpty then none else some (digitsToNat d1, digitsToNat d2)
    else none
  else none

/-- `re.search(r'Pagina\s+(\d+)\s+di\s+(\d+)', text)`: leftmost match wins. -/
def searchPagina : List Char → Option (Nat × Nat)
  | [] => none
  | c :: cs =>
    match matchPagina (c :: cs) with
    | some r => some r
    | none => searchPagina cs

/-- Attempt to match the regex `\((\d+)\)` at the head of the list. -/
def matchParen (l : List Char) : Option Nat :=
  match l with
  | '(' :: rest =>
    let ds := rest.takeWhile (fun c => c.isDigit)
    if ds.isEmpty then none
    else
      match rest.dropWhile (fun c => c.isDigit) with
      | ')' :: _ => some (digitsToNat ds)
      | _ => none
  | _ => none

/-- `re.search(r'\((\d+)\)', text)`: leftmost match wins. -/
def searchParen : List Char → Option Nat
  | [] => none
  | c :: cs =>
    match matchParen (c :: cs) with
    | some r => some r
    | none => searchParen cs

/-- An `<a>` element as the code reads it: its `href` attribute (absent when
the attribute is missing) and its `title` attribute. -/
structure Anchor where
  href : Option String := none
  title : Option String := none
deriving DecidableEq

/-- A `<td>` cell: its stripped text (`get_text(strip=True)`) and the anchors
it contains, in document order. -/
structure Cell where
  text : String := ""
  anchors : List Anchor := []
deriving DecidableEq

/-- A fetched, parsed page (a BeautifulSoup handle), reduced to the located
values the crawler reads from it:
* `paginationLabel`: text of `ul.pagination li.etichettaRicerca` when both are
  present, `none` when either is absent;
* `resultsHeader`: text of `h3.risultati` when present;
* `anchors`: all `<a>` elements of the page, in document order;
* `docTable`: the `<tr>` rows (as cell lists) of `table.Documentazione`;
* `listTable`: the `<tr>` rows of `table.ElencoViaVasRicerca`. -/
structure Soup where
  paginationLabel : Option String := none
  resultsHeader : Option String := none
  anchors : List Anchor := []
  docTable : Option (List (List Cell)) := none
  listTable : Option (List (List Cell)) := none
deriving DecidableEq

/-- `find_total_pages` of `src/eng/main.py` (identical in `src/imparis.py`,
`src/imparis2.py`, `src/list_projects.py`): parse `Pagina X di Y` out of the
pagination label and return `Y`; return 1 when the label is absent or does not
match. -/
def find_total_pages (p : Soup) : Nat :=
  match p.paginationLabel with
  | none => 1
  | some lbl =>
    match searchPagina lbl.data with
    | some pr => pr.2
    | none => 1

/-- `find_total_pages` of `src/eng/list_projects.py`: parse the parenthesized
result count `(N)` out of the `h3.risultati` header and return
`(N + 9) // 10`; return 1 when the header is absent or does not match. -/
def find_total_pages_count (p : Soup) : Nat :=
  match p.resultsHeader with
  | none => 1
  | some t =>
    match searchParen t.data with
    | some n => (n + 9) / 10
    | none => 1

/-- The forbidden filename characters of `re.sub(r'[\\/*?:"<>|]', "_", ...)`. -/
def forbiddenChars : List Char := ['\\', '/', '*', '?', ':', '"', '<', '>', '|']

/-- One character of the sanitizing substitution. -/
def sanitizeChar (c : Char) : Char := if c ∈ forbiddenChars then '_' else c

/-- `re.sub(r'[\\/*?:"<>|]', "_", s)`: every forbidden character becomes one
underscore, all other characters are kept. -/
def sanitize (s : String) : String := ⟨s.data.map sanitizeChar⟩

/-- The global `BASE_URL` constant of the crawler sources. -/
def BASE_URL : String := "https://va.mite.gov.it"

/-- Whether a URL string is absolute (carries an explicit http/https origin;
the site only serves http(s) URLs). -/
def isAbsolute (s : String) : Bool :=
  "http://".data.isPrefixOf s.data || "https://".data.isPrefixOf s.data

/-- Split an absolute base URL into its origin (`scheme://host`) and its path. -/
def splitOrigin (b : List Char) : List Char × List Char :=
  if "https://".data.isPrefixOf b then
    let rest := b.drop 8
    ("https://".data ++ rest.takeWhile (fun c => c ≠ '/'), rest.dropWhile (fun c => c ≠ '/'))
  else if "http://".data.isPrefixOf b then
    let rest := b.drop 7
    ("http://".data ++ rest.takeWhile (fun c => c ≠ '/'), rest.dropWhile (fun c => c ≠ '/'))
  else ([], b)

/-- Directory part of a URL path, with its trailing slash; `/` when the path
is empty or has no slash. -/
def pathDir (path : List Char) : List Char :=
  let pre := (path.reverse.dropWhile (fun c => c ≠ '/')).reverse
  if pre.isEmpty then ['/'] else pre

/-- `urllib.parse.urljoin(base, href)` restricted to the href shapes the site
produces: empty hrefs, scheme-absolute http(s) URLs, protocol-relative `//…`
hrefs (the bases in the sources are all https), root-relative `/…` hrefs and
plain relative hrefs resolved against the base's directory. -/
def urljoin (base href : String) : String :=
  if href.data.isEmpty then base
  else if isAbsolute href then href
  else if "//".data.isPrefixOf href.data then ⟨"https:".data ++ href.data⟩
  else
    let op := splitOrigin base.data
    if "/".data.isPrefixOf href.data then ⟨op.1 ++ href.data⟩
    else ⟨op.1 ++ pathDir op.2 ++ href.data⟩

/-- Python's substring containment `pat in s`, on character lists. -/
def containsSub (pat : List Char) : List Char → Bool
  | [] => pat.isEmpty
  | c :: cs => pat.isPrefixOf (c :: cs) || containsSub pat cs

/-- The membership-tested append of the sources:
`if full_url not in all_links: all_links.append(full_url)`. -/
def insertNew (ls : List String) (u : String) : List String :=
  if u ∈ ls then ls else ls ++ [u]

/-- The link-extraction loop shared by `collect_search_results`
(`src/eng/main.py`) and `get_procedura_links` (`src/imparis.py`): every anchor
whose href contains `pattern` as a substring is resolved against `BASE_URL`
and appended unless already collected. -/
def extractLinks (pattern : String) (anchors : List Anchor) (acc : List String) :
    List String :=
  anchors.foldl (fun ls a =>
    match a.href with
    | some h =>
      if containsSub pattern.data h.data then insertNew ls (urljoin BASE_URL h) else ls
    | none => ls) acc

/-- `get_procedura_links` of `src/imparis.py`: extract the documentation links
of a detail page. -/
def get_procedura_links (pageAnchors : List Anchor) : List String :=
  extractLinks "/it-IT/Oggetti/Documentazione/" pageAnchors []

/-- The resolved URL stream the extraction loop inserts from, in document
order (before deduplication). -/
def matchedUrls (pattern : String) (anchors : List Anchor) : List String :=
  anchors.filterMap fun a =>
    match a.href with
    | some h =>
      if containsSub pattern.data h.data then some (urljoin BASE_URL h) else none
    | none => none

/-- First-occurrence deduplication, following the specification's words for a
LinkSet: keep each URL at the position of its first appearance. -/
def dedupFirst (l : List String) : List String :=
  match l with
  | [] => []
  | x :: xs => x :: dedupFirst (xs.filter (fun y => decide (y ≠ x)))
termination_by l.length
decreasing_by
  exact Nat.lt_succ_of_le (List.length_filter_le _ xs)

/-- The anchor filter of
`cols[8].find("a", href=True, title="Scarica il documento")`. -/
def isDownloadAnchor (a : Anchor) : Bool :=
  a.href.isSome && a.title == some "Scarica il documento"

/-- Processing of one data row of the `Documentazione` table
(`get_document_links`, `src/eng/main.py` and `src/imparis.py`): a row with
fewer than 9 cells is skipped; otherwise the filename is cell 1's text and the
download URL comes from the first anchor of cell 8 that has an href and the
title `Scarica il documento`; without such an anchor the row yields nothing. -/
def rowDocRefs (row : List Cell) : List (String × String) :=
  if row.length < 9 then []
  else
    match (row.getD 8 {}).anchors.find? isDownloadAnchor with
    | some a =>
      match a.href with
      | some h => [(urljoin BASE_URL h, (row.getD 1 {}).text)]
      | none => []
    | none => []

/-- One page of `get_document_links`: the data rows (the `<tr>` list with the
header row already dropped) are scanned in order, each contributing its
document refs. -/
def documentRefsOfRows (rows : List (List Cell)) : List (String × String) :=
  rows.foldl (fun acc r => acc ++ rowDocRefs r) []

/-- The `while True` pagination loop of `collect_search_results`
(`src/eng/main.py`, and the same shape in `src/list_projects.py`): fetch the
page; on a fetch failure return what was accumulated; otherwise extract links,
refresh the total from this page, stop when `page >= total_pages`, else move
to the next page.  The network is an oracle `fetch : Nat → Option Soup`
(`none` models a `requests.RequestException`); the loop also records the trace
of page indices it fetched.  `fuel` bounds the recursion of the embedding and
is irrelevant whenever it exceeds the number of iterations actually taken. -/
def crawlLoop (fetch : Nat → Option Soup) (pattern : String) :
    Nat → Nat → List String → List String × List Nat
  | 0, _, acc => (acc, [])
  | fuel + 1, page, acc =>
    match fetch page with
    | none => (acc, [page])
    | some s =>
      let acc2 := extractLinks pattern s.anchors acc
      let total := find_total_pages s
      if total ≤ page then (acc2, [page])
      else
        let r := crawlLoop fetch pattern fuel (page + 1) acc2
        (r.1, page :: r.2)

/-- `collect_search_results` of `src/eng/main.py`: run the paginated search
crawl from page 1 with an empty link accumulator. -/
def collect_search_results (fetch : Nat → Option Soup) (pattern : String)
    (fuel : Nat) : List String × List Nat :=
  crawlLoop fetch pattern fuel 1 []

/-- The links contributed by a given list of page indices, in order, with the
same per-page extraction the crawl performs (failed fetches contribute
nothing). -/
def pageLinks (fetch : Nat → Option Soup) (pattern : String) (pages : List Nat) :
    List String :=
  pages.foldl (fun acc i =>
    match fetch i with
    | some s => extractLinks pattern s.anchors acc
    | none => acc) []

/-- One record of the tabular export of `collect_search_results`
(`src/eng/list_projects.py`). -/
structure Project where
  pid : String
  url : String
  docUrl : String
  title : String
  proponent : String
  status : String
  includeFlag : String
deriving DecidableEq

/-- `url.split("/")[-1]`: the segment after the last slash. -/
def lastSegment (s : String) : String :=
  ⟨(s.data.reverse.takeWhile (fun c => c ≠ '/')).reverse⟩

/-- Processing of one data row of the `ElencoViaVasRicerca` table
(`src/eng/list_projects.py`): rows with fewer than 5 cells, or without an
href-bearing anchor in cell 3, are skipped; otherwise the record is built from
cells 0-4 with `include` preset to `YES`. -/
def projectOfRow (r : List Cell) : Option Project :=
  if r.length < 5 then none
  else
    match (r.getD 3 {}).anchors.find? (fun a => a.href.isSome) with
    | none => none
    | some info =>
      match info.href with
      | none => none
      | some ih =>
        let projectUrl := urljoin BASE_URL ih
        let docUrl :=
          match (r.getD 4 {}).anchors.find? (fun a => a.href.isSome) with
          | some d =>
            match d.href with
            | some dh => urljoin BASE_URL dh
            | none => ""
          | none => ""
        some { pid := lastSegment projectUrl, url := projectUrl, docUrl := docUrl,
               title := (r.getD 0 {}).text, proponent := (r.getD 1 {}).text,
               status := (r.getD 2 {}).text, includeFlag := "YES" }

/-- The `while True` loop of `collect_search_results`
(`src/eng/list_projects.py`).  Unlike the `src/eng/main.py` loop, the total
page count is computed only when it is still `None` — that is, from the first
fetched page — and is never refreshed afterwards.  A fetch failure, a missing
results table or an empty row list each stop the loop with the projects
accumulated so far.  The trace of fetched page indices is recorded. -/
def listCrawlLoop (fetch : Nat → Option Soup) :
    Nat → Nat → Option Nat → List Project → List Project × List Nat
  | 0, _, _, acc => (acc, [])
  | fuel + 1, page, totalOpt, acc =>
    match fetch page with
    | none => (acc, [page])
    | some s =>
      let total :=
        match totalOpt with
        | some t => t
        | none => find_total_pages_count s
      match s.listTable with
      | none => (acc, [page])
      | some trRows =>
        let rows := trRows.drop 1
        if rows.isEmpty then (acc, [page])
        else
          let acc2 := rows.foldl (fun a r =>
            match projectOfRow r with
            | some pr => a ++ [pr]
            | none => a) acc
          if total ≤ page then (acc2, [page])
          else
            let r := listCrawlLoop fetch fuel (page + 1) (some total) acc2
            (r.1, page :: r.2)

/-- `collect_search_results` of `src/eng/list_projects.py`, from page 1 with
the total still unknown. -/
def list_collect_search_results (fetch : Nat → Option Soup) (fuel : Nat) :
    List Project × List Nat :=
  listCrawlLoop fetch fuel 1 none []

/-- `os.path.join(save_path, safe_filename)` for the relative components the
program builds. -/
def pathJoin (dir file : String) : String := dir ++ "/" ++ file

/-- Outcome of one `download_file` call: the returned path (`None` on
failure, per `src/imparis2.py`), the set of files on disk afterwards, and how
many network fetches the call performed. -/
structure DlResult where
  path : Option String
  files : List String
  fetches : Nat
deriving DecidableEq

/-- `download_file` of `src/imparis2.py` (the variants in `src/eng/main.py`
and `src/imparis.py` differ only in not returning the path): sanitize the
filename, join it to the destination directory, and if that path already
exists return it with no network call; otherwise perform one streamed fetch
and, when it succeeds, write the file.  The filesystem is the list of existing
paths and the transport is the oracle `net` (`false` models a request that
raises before anything is written). -/
def download_file (net : String → Bool) (url nome_file save_path : String)
    (files : List String) : DlResult :=
  let local_path := pathJoin save_path (sanitize nome_file)
  if local_path ∈ files then ⟨some local_path, files, 0⟩
  else if net url then ⟨some local_path, local_path :: files, 1⟩
  else ⟨none, files, 1⟩

/-- A data row of the `ElencoViaVasRicerca` table with five cells and an
href-bearing info anchor, used in the stale-total scenario below. -/
def staleRow : List Cell :=
  [{ text := "T" }, { text := "P" }, { text := "S" },
   { anchors := [{ href := some "/it-IT/Oggetti/Info/7" }] }, {}]

/-- A first search page whose results header reads `(25)` — 3 total pages. -/
def staleFirstPage : Soup :=
  { resultsHeader := some "Progetti (25)", listTable := some [[], staleRow] }

/-- A later search page whose results header reads `(10)` — 1 total page. -/
def staleLaterPage : Soup :=
  { resultsHeader := some "Progetti (10)", listTable := some [[], staleRow] }

/-- A network oracle serving `staleFirstPage` as page 1 and `staleLaterPage`
as pages 2 and 3: the printed total shrinks from 3 to 1 after page 1. -/
def staleFetch : Nat → Option Soup := fun n =>
  if n ≤ 3 then (if n = 1 then some staleFirstPage else some staleLaterPage) else none

/-! ### Helper lemmas -/

/-- Integer ceiling of `N / 10` agrees with the `(N + 9) // 10` idiom. -/
theorem ceil_div_ten (N : ℕ) : ⌈(N : ℚ) / 10⌉ = ((N + 9) / 10 : ℕ) := by
  have ha : 10 * ((N + 9) / 10) ≤ N + 9 ∧ N ≤ 10 * ((N + 9) / 10) := by
    have h := Nat.div_add_mod (N + 9) 10
    have h2 : (N + 9) % 10 < 10 := Nat.mod_lt _ (by norm_num)
    omega
  have h1 : 10 * (((N + 9) / 10 : ℕ) : ℚ) ≤ (N : ℚ) + 9 := by exact_mod_cast ha.1
  have h2 : (N : ℚ) ≤ 10 * (((N + 9) / 10 : ℕ) : ℚ) := by exact_mod_cast ha.2
  have hdiv : 10 * ((N : ℚ) / 10) = (N : ℚ) := by ring
  rw [Int.ceil_eq_iff]
  have hc : (((((N + 9) / 10 : ℕ) : ℤ)) : ℚ) = (((N + 9) / 10 : ℕ) : ℚ) := by
    norm_cast
  rw [hc]
  exact ⟨by linarith, by linarith⟩

/-- The sanitizing substitution is a fixed point on its own output characters. -/
theorem sanitizeChar_idem (c : Char) :
    sanitizeChar (sanitizeChar c) = sanitizeChar c := by
  by_cases h : c ∈ forbiddenChars
  · simp [sanitizeChar, h]
  · simp [sanitizeChar, h]


/-- A list is a Boolean prefix of itself followed by anything. -/
theorem isPrefixOf_append_self (l t : List Char) : l.isPrefixOf (l ++ t) = true := by
  simp

/-- A Boolean prefix yields the remaining suffix. -/
theorem isPrefixOf_exists {l₁ l₂ : List Char} (h : l₁.isPrefixOf l₂ = true) :
    ∃ t, l₂ = l₁ ++ t := by
  simp at h
  obtain ⟨t, rfl⟩ := h
  exact ⟨t, rfl⟩

/-- Resolution against the program's base URL always yields an absolute URL. -/
theorem urljoin_base_absolute (h : String) :
    isAbsolute (urljoin BASE_URL h) = true := by
  unfold urljoin
  by_cases he : h.data.isEmpty
  · rw [if_pos he]; decide
  · rw [if_neg he]
    by_cases ha : isAbsolute h = true
    · rw [if_pos ha]; exact ha
    · rw [if_neg ha]
      by_cases hp : "//".data.isPrefixOf h.data = true
      · rw [if_pos hp]
        obtain ⟨t, ht⟩ := isPrefixOf_exists hp
        have h2 : "https:".data ++ h.data = "https://".data ++ t := by
          rw [ht]; rfl
        simp only [isAbsolute, h2]
        rw [isPrefixOf_append_self]
        simp
      · rw [if_neg hp]
        have hso : splitOrigin BASE_URL.data = ("https://va.mite.gov.it".data, []) := by
          decide
        rw [hso]
        by_cases hr : "/".data.isPrefixOf h.data = true
        · rw [if_pos hr]
          simp only [isAbsolute]
          have h3 : "https://va.mite.gov.it".data ++ h.data =
              "https://".data ++ ("va.mite.gov.it".data ++ h.data) := by
            simp
          rw [h3, isPrefixOf_append_self]
          simp
        · rw [if_neg hr]
          simp only [isAbsolute]
          have h3 : "https://va.mite.gov.it".data ++ pathDir [] ++ h.data =
              "https://".data ++ ("va.mite.gov.it".data ++ pathDir [] ++ h.data) := by
            simp
          rw [h3, isPrefixOf_append_self]
          simp


/-- Membership-tested appending preserves the no-duplicates invariant. -/
theorem foldl_insertNew_nodup (l : List String) :
    ∀ acc : List String, acc.Nodup → (l.foldl insertNew acc).Nodup := by
  induction l with
  | nil => exact fun acc h => h
  | cons x xs ih =>
    intro acc hacc
    simp only [List.foldl_cons]
    apply ih
    unfold insertNew
    by_cases hx : x ∈ acc
    · rw [if_pos hx]; exact hacc
    · rw [if_neg hx]
      simp [List.nodup_append, hacc, hx]

/-- Membership after the insertion fold is membership in the accumulator or
in the inserted stream. -/
theorem mem_foldl_insertNew (l : List String) :
    ∀ (acc : List String) (u : String),
      u ∈ l.foldl insertNew acc ↔ u ∈ acc ∨ u ∈ l := by
  induction l with
  | nil => simp
  | cons x xs ih =>
    intro acc u
    simp only [List.foldl_cons, ih]
    unfold insertNew
    by_cases hx : x ∈ acc
    · rw [if_pos hx, List.mem_cons]
      constructor
      · rintro (h | h)
        · exact Or.inl h
        · exact Or.inr (Or.inr h)
      · rintro (h | h | h)
        · exact Or.inl h
        · exact Or.inl (h ▸ hx)
        · exact Or.inr h
    · rw [if_neg hx]
      simp only [List.mem_append, List.mem_singleton, List.mem_cons]
      tauto

/-- Unfolding lemma: deduplicating the empty list. -/
theorem dedupFirst_nil : dedupFirst [] = [] := by
  rw [dedupFirst]

/-- Unfolding lemma: deduplication keeps the head and drops its later
occurrences. -/
theorem dedupFirst_cons (x : String) (xs : List String) :
    dedupFirst (x :: xs) = x :: dedupFirst (xs.filter fun y => decide (y ≠ x)) := by
  rw [dedupFirst]

/-- The source's insertion fold computes exactly the first-occurrence
deduplication of the not-yet-collected stream. -/
theorem foldl_insertNew_eq_dedupFirst (l : List String) :
    ∀ acc : List String,
      l.foldl insertNew acc =
        acc ++ dedupFirst (l.filter fun x => decide (x ∉ acc)) := by
  induction l with
  | nil => intro acc; simp [dedupFirst_nil]
  | cons x xs ih =>
    intro acc
    simp only [List.foldl_cons, List.filter_cons]
    by_cases hx : x ∈ acc
    · have hd : decide (x ∉ acc) = false := by simp [hx]
      rw [hd]
      simp only [Bool.false_eq_true, if_false]
      have hi : insertNew acc x = acc := by unfold insertNew; rw [if_pos hx]
      rw [hi]
      exact ih acc
    · have hd : decide (x ∉ acc) = true := by simp [hx]
      rw [hd]
      simp only [if_true]
      have hi : insertNew acc x = acc ++ [x] := by unfold insertNew; rw [if_neg hx]
      rw [hi, ih (acc ++ [x]), dedupFirst_cons, List.append_assoc,
        List.singleton_append]
      congr 3
      rw [List.filter_filter]
      apply List.filter_congr
      intro a _
      by_cases h1 : a ∈ acc <;> by_cases h2 : a = x <;> simp [h1, h2]


/-- The anchor-level extraction loop is the insertion fold over the resolved
matched-URL stream. -/
theorem extractLinks_eq_foldl (pattern : String) (anchors : List Anchor) :
    ∀ acc, extractLinks pattern anchors acc =
      (matchedUrls pattern anchors).foldl insertNew acc := by
  induction anchors with
  | nil => intro acc; rfl
  | cons a rest ih =>
    intro acc
    simp only [extractLinks, matchedUrls, List.foldl_cons, List.filterMap_cons] at ih ⊢
    cases ha : a.href with
    | none => exact ih acc
    | some h =>
      by_cases hm : containsSub pattern.data h.data = true
      · simp only [hm, if_true, List.foldl_cons]
        exact ih (insertNew acc (urljoin BASE_URL h))
      · simp only [hm, if_false]
        exact ih acc


/-- Row-level contribution count of the document scan. -/
theorem rowDocRefs_length (r : List Cell) :
    (rowDocRefs r).length =
      if (decide (9 ≤ r.length) && (r.getD 8 {}).anchors.any isDownloadAnchor) = true
      then 1 else 0 := by
  unfold rowDocRefs
  by_cases h9 : r.length < 9
  · rw [if_pos h9]
    have h9d : decide (9 ≤ r.length) = false := by simp; omega
    rw [h9d, Bool.false_and]
    simp
  · rw [if_neg h9]
    have h9' : decide (9 ≤ r.length) = true := by simp; omega
    cases hf : (r.getD 8 {}).anchors.find? isDownloadAnchor with
    | none =>
      have hany : (r.getD 8 {}).anchors.any isDownloadAnchor = false := by
        rw [List.any_eq_false]
        intro a ha
        exact List.find?_eq_none.mp hf a ha
      rw [hany, Bool.and_false]
      simp
    | some a =>
      have hp : isDownloadAnchor a = true := List.find?_some hf
      have hmem : a ∈ (r.getD 8 {}).anchors := List.mem_of_find?_eq_some hf
      have hany : (r.getD 8 {}).anchors.any isDownloadAnchor = true :=
        List.any_eq_true.mpr ⟨a, hmem, hp⟩
      have hhref : a.href.isSome = true := by
        simp only [isDownloadAnchor, Bool.and_eq_true] at hp
        exact hp.1
      obtain ⟨h, hh⟩ := Option.isSome_iff_exists.mp hhref
      dsimp only
      rw [hh]
      rw [h9', hany]
      simp

/-- Accumulator-generalised count of the document refs a row list yields. -/
theorem documentRefsOfRows_aux (rows : List (List Cell)) :
    ∀ acc : List (String × String),
      (rows.foldl (fun acc r => acc ++ rowDocRefs r) acc).length =
        acc.length + (rows.filter fun r =>
          decide (9 ≤ r.length) && (r.getD 8 {}).anchors.any isDownloadAnchor).length := by
  induction rows with
  | nil => simp
  | cons r rs ih =>
    intro acc
    simp only [List.foldl_cons, List.filter_cons]
    rw [ih]
    rw [List.length_append, rowDocRefs_length r]
    by_cases hp : (decide (9 ≤ r.length) && (r.getD 8 {}).anchors.any isDownloadAnchor) = true
    · rw [if_pos hp, if_pos hp]
      simp
      omega
    · rw [if_neg hp, if_neg hp]
      simp


/-- When pages `page..k-1` fetch successfully with totals at least `k` and
page `k` fails to fetch, the crawl loop returns exactly the links accumulated
from pages `page..k-1`. -/
theorem crawlLoop_fail (fetch : Nat → Option Soup) (pattern : String) (k : Nat)
    (hk : ∀ i, 1 ≤ i → i < k → ∃ s, fetch i = some s ∧ k ≤ find_total_pages s)
    (hfail : fetch k = none) :
    ∀ (fuel page : Nat) (acc : List String), 1 ≤ page → page ≤ k →
      k - page < fuel →
      (crawlLoop fetch pattern fuel page acc).1 =
        (List.range' page (k - page)).foldl
          (fun acc i =>
            match fetch i with
            | some s => extractLinks pattern s.anchors acc
            | none => acc) acc := by
  intro fuel
  induction fuel with
  | zero =>
    intro page acc h1 h2 h3
    omega
  | succ n ih =>
    intro page acc h1 h2 h3
    by_cases hpk : page = k
    · subst hpk
      simp only [crawlLoop, hfail]
      have h0 : page - page = 0 := by omega
      rw [h0]
      simp
    · have hlt : page < k := by omega
      obtain ⟨s, hs, htot⟩ := hk page h1 hlt
      simp only [crawlLoop, hs]
      have hnot : ¬ find_total_pages s ≤ page := by omega
      rw [if_neg hnot]
      have hrange : List.range' page (k - page) =
          page :: List.range' (page + 1) (k - (page + 1)) := by
        have hsp : k - page = (k - (page + 1)) + 1 := by omega
        rw [hsp, List.range'_succ]
      rw [hrange]
      simp only [List.foldl_cons, hs]
      exact ih (page + 1) (extractLinks pattern s.anchors acc) (by omega) (by omega)
        (by omega)

/-- Every page index in the crawl loop's fetch trace is either the starting
page or exceeds it while being bounded by the total printed on the
previously fetched page. -/
theorem crawlLoop_trace (fetch : Nat → Option Soup) (pattern : String) :
    ∀ (fuel page : Nat) (acc : List String) (q : Nat),
      q ∈ (crawlLoop fetch pattern fuel page acc).2 →
      q = page ∨ (page < q ∧ ∃ s, fetch (q - 1) = some s ∧ q ≤ find_total_pages s) := by
  intro fuel
  induction fuel with
  | zero =>
    intro page acc q hq
    simp [crawlLoop] at hq
  | succ n ih =>
    intro page acc q hq
    simp only [crawlLoop] at hq
    cases hf : fetch page with
    | none =>
      rw [hf] at hq
      dsimp only at hq
      simp at hq
      exact Or.inl hq
    | some s =>
      rw [hf] at hq
      dsimp only at hq
      by_cases hstop : find_total_pages s ≤ page
      · rw [if_pos hstop] at hq
        simp at hq
        exact Or.inl hq
      · rw [if_neg hstop] at hq
        simp only [List.mem_cons] at hq
        rcases hq with rfl | hq
        · exact Or.inl rfl
        · rcases ih (page + 1) _ q hq with rfl | ⟨hlt2, hex⟩
          · refine Or.inr ⟨by omega, s, ?_, by omega⟩
            have he : page + 1 - 1 = page := by omega
            rw [he]
            exact hf
          · exact Or.inr ⟨by omega, hex⟩

/-! ### Claim theorems -/

/-- C1: if the sanitized destination path is not yet on disk and the transport
succeeds, a first `download_file` call fetches once and returns the
destination path, and a second call with identical inputs performs no network
fetch, changes nothing on disk, and returns the same path; across the two
calls exactly one network fetch occurs. -/
theorem download_file_idempotent (net : String → Bool)
    (url nome_file save_path : String) (files : List String)
    (habs : pathJoin save_path (sanitize nome_file) ∉ files)
    (hnet : net url = true) :
    (download_file net url nome_file save_path files).path =
        some (pathJoin save_path (sanitize nome_file)) ∧
    (download_file net url nome_file save_path
        (download_file net url nome_file save_path files).files).path =
      (download_file net url nome_file save_path files).path ∧
    (download_file net url nome_file save_path
        (download_file net url nome_file save_path files).files).fetches = 0 ∧
    (download_file net url nome_file save_path
        (download_file net url nome_file save_path files).files).files =
      (download_file net url nome_file save_path files).files ∧
    (download_file net url nome_file save_path files).fetches +
      (download_file net url nome_file save_path
        (download_file net url nome_file save_path files).files).fetches = 1 := by
  have hfirst : download_file net url nome_file save_path files =
      ⟨some (pathJoin save_path (sanitize nome_file)),
       pathJoin save_path (sanitize nome_file) :: files, 1⟩ := by
    unfold download_file
    rw [if_neg habs, if_pos hnet]
  rw [hfirst]
  unfold download_file
  rw [if_pos (List.mem_cons_self _ _)]
  exact ⟨rfl, rfl, rfl, rfl, rfl⟩

/-- C1 witness: a fresh download of `a.pdf` into `d` over an always-succeeding
transport; the second identical call performs no fetch. -/
theorem download_file_idempotent_witness :
    (download_file (fun _ => true) "u" "a.pdf" "d"
        (download_file (fun _ => true) "u" "a.pdf" "d" []).files).fetches = 0 :=
  (download_file_idempotent (fun _ => true) "u" "a.pdf" "d" [] (by decide)
    rfl).2.2.1

/-- C2: sanitization preserves length, maps each character of the forbidden
set to exactly one underscore while leaving every other character unchanged,
and maps the specification's example to `a_b_c_d_e_f_g_h_i`. -/
theorem sanitize_char_by_char :
    (∀ s : String, (sanitize s).length = s.length) ∧
    (∀ (s : String) (i : Nat) (c : Char), s.data[i]? = some c →
      (sanitize s).data[i]? =
        some (if c ∈ ['\\', '/', '*', '?', ':', '"', '<', '>', '|']
              then '_' else c)) ∧
    sanitize "a/b\\c?d:e<f>g\"h|i" = "a_b_c_d_e_f_g_h_i" := by
  refine ⟨fun s => ?_, fun s i c h => ?_, by decide⟩
  · cases s with
    | mk d => simp [sanitize, String.length]
  · simp [sanitize, List.getElem?_map, h, sanitizeChar, forbiddenChars]

/-- C2 witness: position 1 of `a:b` holds a colon and sanitizes to an
underscore. -/
theorem sanitize_char_by_char_witness :
    (sanitize "a:b").data[1]? =
      some (if ':' ∈ ['\\', '/', '*', '?', ':', '"', '<', '>', '|']
            then '_' else ':') :=
  sanitize_char_by_char.2.1 "a:b" 1 ':' (by decide)

/-- C3: on a listing page whose results header parses to the count `(N)`,
`find_total_pages` of `src/eng/list_projects.py` returns `(N + 9) // 10`,
which equals `ceil(N / 10)` for every natural `N`. -/
theorem find_total_pages_count_ceil (p : Soup) (txt : String) (N : ℕ)
    (h1 : p.resultsHeader = some txt) (h2 : searchParen txt.data = some N) :
    find_total_pages_count p = (N + 9) / 10 ∧
    (find_total_pages_count p : ℤ) = ⌈(N : ℚ) / 10⌉ := by
  constructor
  · simp [find_total_pages_count, h1, h2]
  · simp [find_total_pages_count, h1, h2, ceil_div_ten]

/-- C3 witness: a header reading `Progetti (25)` gives 3 total pages, the
ceiling of 25/10. -/
theorem find_total_pages_count_ceil_witness :
    find_total_pages_count { resultsHeader := some "Progetti (25)" } = (25 + 9) / 10 ∧
    (find_total_pages_count { resultsHeader := some "Progetti (25)" } : ℤ) =
      ⌈(25 : ℚ) / 10⌉ :=
  find_total_pages_count_ceil _ "Progetti (25)" 25 rfl (by decide)

/-- C4 counterexample: `find_total_pages` parses the label
`Pagina X di Y` but its return value is the single number `Y` — two pages
whose labels read `Pagina 2 di 5` and `Pagina 3 di 5` (different current
page, same total) get identical return values, so no reading of the returned
value recovers the current page `X`; the pair `(X, Y)` is not returned. -/
theorem find_total_pages_not_a_pair :
    find_total_pages { paginationLabel := some "Pagina 2 di 5" } =
      find_total_pages { paginationLabel := some "Pagina 3 di 5" } ∧
    searchPagina ("Pagina 2 di 5").data = some (2, 5) ∧
    searchPagina ("Pagina 3 di 5").data = some (3, 5) ∧
    ¬ ∃ curOf : Nat → Nat, ∀ (p : Soup) (lbl : String) (x y : Nat),
        p.paginationLabel = some lbl → searchPagina lbl.data = some (x, y) →
        curOf (find_total_pages p) = x := by
  refine ⟨by decide, by decide, by decide, ?_⟩
  rintro ⟨f, hf⟩
  have h2 := hf { paginationLabel := some "Pagina 2 di 5" } "Pagina 2 di 5" 2 5
    rfl (by decide)
  have h3 := hf { paginationLabel := some "Pagina 3 di 5" } "Pagina 3 di 5" 3 5
    rfl (by decide)
  have e : find_total_pages { paginationLabel := some "Pagina 2 di 5" } =
      find_total_pages { paginationLabel := some "Pagina 3 di 5" } := by decide
  rw [e] at h2
  omega

/-- C4 (amended): on every listing page whose pagination label parses as
`Pagina X di Y`, `find_total_pages` parses both integers but returns exactly
the total `Y`; the current page `X` is not part of the return value. -/
theorem find_total_pages_returns_total (p : Soup) (lbl : String) (x y : Nat)
    (h1 : p.paginationLabel = some lbl)
    (h2 : searchPagina lbl.data = some (x, y)) :
    find_total_pages p = y := by
  simp [find_total_pages, h1, h2]

/-- C4 witness: a label reading `Pagina 2 di 8` yields the total 8. -/
theorem find_total_pages_returns_total_witness :
    find_total_pages { paginationLabel := some "Pagina 2 di 8" } = 8 :=
  find_total_pages_returns_total _ "Pagina 2 di 8" 2 8 rfl (by decide)

/-- C9 counterexample: a results header reading `(0)` makes the count-format
oracle return 0 total pages, and a pagination label stating `Pagina 1 di 0`
makes the label-format oracle return 0 — both violating `total ≥ 1`. -/
theorem total_pages_zero_counterexample :
    find_total_pages_count { resultsHeader := some "(0)" } = 0 ∧
    find_total_pages { paginationLabel := some "Pagina 1 di 0" } = 0 :=
  ⟨by decide, by decide⟩

/-- C9 (amended): both pagination oracles return a total ≥ 1 whenever the
signal is absent, fails to parse, or parses to a positive number; the sole
exceptions are a count label `(0)` and a pagination label stating a total of
0, which yield 0. -/
theorem total_pages_ge_one :
    (∀ p : Soup, p.paginationLabel = none → find_total_pages p = 1) ∧
    (∀ (p : Soup) (lbl : String), p.paginationLabel = some lbl →
      searchPagina lbl.data = none → find_total_pages p = 1) ∧
    (∀ (p : Soup) (lbl : String) (x y : Nat), p.paginationLabel = some lbl →
      searchPagina lbl.data = some (x, y) → 1 ≤ y → 1 ≤ find_total_pages p) ∧
    (∀ p : Soup, p.resultsHeader = none → find_total_pages_count p = 1) ∧
    (∀ (p : Soup) (txt : String), p.resultsHeader = some txt →
      searchParen txt.data = none → find_total_pages_count p = 1) ∧
    (∀ (p : Soup) (txt : String) (n : Nat), p.resultsHeader = some txt →
      searchParen txt.data = some n → 1 ≤ n →
      1 ≤ find_total_pages_count p) := by
  refine ⟨fun p h => ?_, fun p lbl h1 h2 => ?_, fun p lbl x y h1 h2 hy => ?_,
    fun p h => ?_, fun p txt h1 h2 => ?_, fun p txt n h1 h2 hn => ?_⟩
  · simp [find_total_pages, h]
  · simp [find_total_pages, h1, h2]
  · simp only [find_total_pages, h1, h2]
    exact hy
  · simp [find_total_pages_count, h]
  · simp [find_total_pages_count, h1, h2]
  · simp only [find_total_pages_count, h1, h2]
    exact (Nat.le_div_iff_mul_le (by norm_num)).mpr (by omega)

/-- C9 witness: a header reading `(1)` yields a total of 1 ≥ 1. -/
theorem total_pages_ge_one_witness :
    1 ≤ find_total_pages_count { resultsHeader := some "(1)" } :=
  total_pages_ge_one.2.2.2.2.2 _ "(1)" 1 rfl (by decide) (by decide)

/-- C10: filename sanitization is idempotent — the replacement character is
not itself forbidden, so a second pass changes nothing. -/
theorem sanitize_idempotent (s : String) :
    sanitize (sanitize s) = sanitize s := by
  simp only [sanitize, List.map_map]
  congr 1
  exact List.map_congr_left fun a _ => sanitizeChar_idem a

/-- C6: for every fetched page and link pattern, the extraction returns a
collection with no duplicate URLs, in which every element is an absolute URL
obtained by resolving a matched anchor's href against the base URL, and the
collection is the first-occurrence deduplication of the resolved matched
stream (insertion order). -/
theorem extractLinks_linkset (pattern : String) (anchors : List Anchor) :
    (extractLinks pattern anchors []).Nodup ∧
    (∀ u ∈ extractLinks pattern anchors [],
      isAbsolute u = true ∧
      ∃ a ∈ anchors, ∃ h, a.href = some h ∧
        containsSub pattern.data h.data = true ∧ u = urljoin BASE_URL h) ∧
    extractLinks pattern anchors [] = dedupFirst (matchedUrls pattern anchors) := by
  refine ⟨?_, fun u hu => ?_, ?_⟩
  · rw [extractLinks_eq_foldl]
    exact foldl_insertNew_nodup _ [] List.nodup_nil
  · rw [extractLinks_eq_foldl, mem_foldl_insertNew] at hu
    rcases hu with h | h
    · simp at h
    · rw [matchedUrls, List.mem_filterMap] at h
      obtain ⟨a, hmem, hfa⟩ := h
      cases ha : a.href with
      | none => rw [ha] at hfa; simp at hfa
      | some hh =>
        rw [ha] at hfa
        dsimp only at hfa
        by_cases hm : containsSub pattern.data hh.data = true
        · rw [if_pos hm] at hfa
          obtain rfl : urljoin BASE_URL hh = u := by injection hfa
          exact ⟨urljoin_base_absolute hh, a, hmem, hh, ha, hm, rfl⟩
        · rw [if_neg hm] at hfa
          simp at hfa
  · rw [extractLinks_eq_foldl, foldl_insertNew_eq_dedupFirst]
    simp


/-- C7: a data row with fewer than 9 cells contributes no document ref; a row
with at least 9 cells contributes exactly one ref — filename from cell 1, URL
resolved from the anchor of cell 8 — if and only if cell 8 contains an anchor
with an href and the title `Scarica il documento`; consequently a page
contributes one ref per row passing that test. -/
theorem document_rows_spec :
    (∀ row : List Cell, row.length < 9 → rowDocRefs row = []) ∧
    (∀ row : List Cell, 9 ≤ row.length →
      ((row.getD 8 {}).anchors.any isDownloadAnchor = true ↔
        ∃ u, rowDocRefs row = [(u, (row.getD 1 {}).text)])) ∧
    (∀ (row : List Cell) (u nm : String), rowDocRefs row = [(u, nm)] →
      nm = (row.getD 1 {}).text ∧
      ∃ a h, (row.getD 8 {}).anchors.find? isDownloadAnchor = some a ∧
        a.href = some h ∧ u = urljoin BASE_URL h) ∧
    (∀ rows : List (List Cell),
      (documentRefsOfRows rows).length =
        (rows.filter fun r =>
          decide (9 ≤ r.length) && (r.getD 8 {}).anchors.any isDownloadAnchor).length) := by
  refine ⟨fun row h => ?_, fun row h9 => ?_, fun row u nm h => ?_, fun rows => ?_⟩
  · unfold rowDocRefs
    rw [if_pos h]
  · have h9' : ¬ row.length < 9 := by omega
    unfold rowDocRefs
    rw [if_neg h9']
    constructor
    · intro hany
      obtain ⟨a, hmem, hp⟩ := List.any_eq_true.mp hany
      cases hf : (row.getD 8 {}).anchors.find? isDownloadAnchor with
      | none => exact absurd hp (List.find?_eq_none.mp hf a hmem)
      | some b =>
        have hpb : isDownloadAnchor b = true := List.find?_some hf
        have hhref : b.href.isSome = true := by
          simp only [isDownloadAnchor, Bool.and_eq_true] at hpb
          exact hpb.1
        obtain ⟨hb, hhb⟩ := Option.isSome_iff_exists.mp hhref
        dsimp only
        rw [hhb]
        exact ⟨urljoin BASE_URL hb, rfl⟩
    · rintro ⟨u, hu⟩
      cases hf : (row.getD 8 {}).anchors.find? isDownloadAnchor with
      | none => rw [hf] at hu; simp at hu
      | some b =>
        have hpb : isDownloadAnchor b = true := List.find?_some hf
        exact List.any_eq_true.mpr ⟨b, List.mem_of_find?_eq_some hf, hpb⟩
  · unfold rowDocRefs at h
    by_cases h9 : row.length < 9
    · rw [if_pos h9] at h; simp at h
    · rw [if_neg h9] at h
      cases hf : (row.getD 8 {}).anchors.find? isDownloadAnchor with
      | none => rw [hf] at h; simp at h
      | some b =>
        rw [hf] at h
        dsimp only at h
        cases hb : b.href with
        | none => rw [hb] at h; simp at h
        | some hh =>
          rw [hb] at h
          dsimp only at h
          simp only [List.cons.injEq, Prod.mk.injEq, and_true] at h
          exact ⟨h.2.symm, b, hh, rfl, hb, h.1.symm⟩
  · unfold documentRefsOfRows
    simpa using documentRefsOfRows_aux rows []


/-- C5: if pages `1..k-1` of a search fetch successfully (each reporting at
least `k` total pages) and the fetch of page `k` fails, the crawl returns
exactly the links accumulated from pages `1..k-1` — no exception escapes, the
failure merely truncates the result. -/
theorem crawl_fetch_failure_truncates (fetch : Nat → Option Soup)
    (pattern : String) (k fuel : Nat) (hk2 : 2 ≤ k)
    (hok : ∀ i, 1 ≤ i → i < k → ∃ s, fetch i = some s ∧ k ≤ find_total_pages s)
    (hfail : fetch k = none) (hfuel : k ≤ fuel) :
    (collect_search_results fetch pattern fuel).1 =
      pageLinks fetch pattern (List.range' 1 (k - 1)) := by
  unfold collect_search_results pageLinks
  have := crawlLoop_fail fetch pattern k hok hfail fuel 1 [] le_rfl (by omega)
    (by omega)
  simpa using this

/-- C5 witness: with page 1 of 3 serving two links and page 2 failing, the
crawl returns exactly page 1's links. -/
theorem crawl_fetch_failure_truncates_witness :
    (collect_search_results
        (fun n => if n = 1
          then some { paginationLabel := some "Pagina 1 di 3",
                      anchors := [{ href := some "/it-IT/Oggetti/Info/1" },
                                  { href := some "/it-IT/Oggetti/Info/2" }] }
          else none)
        "/it-IT/Oggetti/Info/" 9).1 =
      pageLinks
        (fun n => if n = 1
          then some { paginationLabel := some "Pagina 1 di 3",
                      anchors := [{ href := some "/it-IT/Oggetti/Info/1" },
                                  { href := some "/it-IT/Oggetti/Info/2" }] }
          else none)
        "/it-IT/Oggetti/Info/" (List.range' 1 (2 - 1)) :=
  crawl_fetch_failure_truncates _ "/it-IT/Oggetti/Info/" 2 9 (by omega)
    (fun i h1 h2 => by
      have hi : i = 1 := by omega
      subst hi
      exact ⟨_, rfl, by decide⟩)
    rfl (by omega)

/-- C8 (amended, `src/eng/main.py`): the search-crawl loop refreshes the
total from each fetched page before its stop test, so whenever page `q+1`
appears in the fetch trace, page `q` was fetched successfully and printed a
total of at least `q+1` — the loop never fetches past the most recently
printed total. -/
theorem main_crawl_never_fetches_past_total (fetch : Nat → Option Soup)
    (pattern : String) (fuel q : Nat) (hq : 1 ≤ q)
    (hmem : q + 1 ∈ (collect_search_results fetch pattern fuel).2) :
    ∃ s, fetch q = some s ∧ q + 1 ≤ find_total_pages s := by
  unfold collect_search_results at hmem
  rcases crawlLoop_trace fetch pattern fuel 1 [] (q + 1) hmem with h | ⟨hlt, s, hs, htot⟩
  · omega
  · have he : q + 1 - 1 = q := by omega
    rw [he] at hs
    exact ⟨s, hs, htot⟩

/-- C8 witness: in a two-page crawl the fetch of page 2 is covered by page
1's printed total of 2. -/
theorem main_crawl_never_fetches_past_total_witness :
    ∃ s, (fun n => if n = 1
        then some ({ paginationLabel := some "Pagina 1 di 2" } : Soup)
        else some { paginationLabel := some "Pagina 2 di 2" }) 1 = some s ∧
      1 + 1 ≤ find_total_pages s :=
  main_crawl_never_fetches_past_total
    (fun n => if n = 1
      then some { paginationLabel := some "Pagina 1 di 2" }
      else some { paginationLabel := some "Pagina 2 di 2" })
    "x" 9 1 (by omega) (by decide)

/-- C8 counterexample: the `src/eng/list_projects.py` loop computes the
total only from page 1 (`if total_pages is None`) and never refreshes it —
with page 1 printing 3 total pages and page 2 printing 1, the loop still
fetches page 3, a page index strictly greater than the most recently printed
total. -/
theorem list_crawl_stale_total_counterexample :
    (list_collect_search_results staleFetch 9).2 = [1, 2, 3] ∧
    find_total_pages_count staleLaterPage = 1 ∧
    3 ∈ (list_collect_search_results staleFetch 9).2 ∧
    ¬ 3 ≤ find_total_pages_count staleLaterPage :=
  ⟨by decide, by decide, by decide, by decide⟩


/-- C6 witness: a concrete documentation link extracted from one anchor is
absolute and traced back to its href. -/
theorem extractLinks_linkset_witness :
    isAbsolute "https://va.mite.gov.it/it-IT/Oggetti/Documentazione/5" = true ∧
    ∃ a ∈ [({ href := some "/it-IT/Oggetti/Documentazione/5" } : Anchor)], ∃ h,
      a.href = some h ∧
      containsSub "/it-IT/Oggetti/Documentazione/".data h.data = true ∧
      "https://va.mite.gov.it/it-IT/Oggetti/Documentazione/5" = urljoin BASE_URL h :=
  (extractLinks_linkset "/it-IT/Oggetti/Documentazione/"
      [{ href := some "/it-IT/Oggetti/Documentazione/5" }]).2.1
    "https://va.mite.gov.it/it-IT/Oggetti/Documentazione/5" (by decide)

/-- C7 witness: a 9-cell row whose cell 8 carries the titled download anchor
passes the any-test and yields exactly one document ref. -/
theorem document_rows_spec_witness :
    ([({} : Cell), { text := "f.pdf" }, {}, {}, {}, {}, {}, {},
        ({ anchors := [{ href := some "/dl/1",
                         title := some "Scarica il documento" }] } : Cell)].getD 8
          {}).anchors.any isDownloadAnchor = true ↔
      ∃ u, rowDocRefs
          [({} : Cell), { text := "f.pdf" }, {}, {}, {}, {}, {}, {},
           { anchors := [{ href := some "/dl/1",
                           title := some "Scarica il documento" }] }] =
        [(u, ([({} : Cell), { text := "f.pdf" }, {}, {}, {}, {}, {}, {},
               ({ anchors := [{ href := some "/dl/1",
                                title := some "Scarica il documento" }] } : Cell)].getD 1
                 {}).text)] :=
  document_rows_spec.2.1 _ (by decide)

end Via3
